import Mathlib

/-!
Verification development for the `secrets` repository (src/secrets.py).

Python strings are modelled as lists of Unicode code points (`PyStr`),
byte strings as lists of naturals below 256, and Python exceptions as an
explicit error type threaded through `Except`.  The process environment
is passed explicitly as an association list.
-/

/-- A Python `str`, modelled as its sequence of Unicode code points. -/
abbrev PyStr := List Nat

/-- The process environment (`os.environ`), as an association list from
variable names to values. -/
abbrev Env := List (PyStr × PyStr)

/-- The Python exceptions the modelled code can raise. -/
inductive Err where
  /-- `AttributeError` on reading a missing attribute of the given name. -/
  | attributeError (attr : String)
  /-- `EnvironmentVariable.Undefined(name)` (src/secrets.py line 52). -/
  | undefinedVariable (name : PyStr)
  /-- `binascii.Error` from `base64.b64decode` on malformed input. -/
  | binasciiError
  /-- `UnicodeDecodeError` from `bytes.decode()` on invalid UTF-8. -/
  | unicodeDecodeError
  /-- `IndexError` from `list.pop(0)` on an empty list. -/
  | indexError
  /-- `UnboundLocalError` on reading a local variable never assigned. -/
  | unboundLocalError
deriving DecidableEq, Repr

/-- `os.getenv(name)`: look the name up in the environment. -/
def getenv : Env → PyStr → Option PyStr
  | [], _ => none
  | (k, v) :: rest, name => if k = name then some v else getenv rest name

/-- `EnvironmentVariable.get_value` (src/secrets.py lines 49-53): look up
the stored name; raise `Undefined(name)` when absent. -/
def EnvironmentVariable.get_value (env : Env) (name : PyStr) : Except Err PyStr :=
  match getenv env name with
  | none => .error (.undefinedVariable name)
  | some value => .ok value

/-! ### The base64 collaborator

Modelled from the spec (§6): the external collaborator
`base64.b64encode` / `base64.b64decode` of the Python standard library,
RFC 4648 standard alphabet, over byte lists; encoded text is carried as
`PyStr` (the code points are the ASCII codes). -/

/-- The code point of the base64 alphabet character for a 6-bit value. -/
def b64Char (n : Nat) : Nat :=
  if n < 26 then 65 + n
  else if n < 52 then 97 + (n - 26)
  else if n < 62 then 48 + (n - 52)
  else if n = 62 then 43
  else 47

/-- The 6-bit value of a base64 alphabet code point, `none` outside the
alphabet (the padding sign `=` (61) is not in the alphabet). -/
def b64Index (c : Nat) : Option Nat :=
  if 65 ≤ c ∧ c ≤ 90 then some (c - 65)
  else if 97 ≤ c ∧ c ≤ 122 then some (c - 97 + 26)
  else if 48 ≤ c ∧ c ≤ 57 then some (c - 48 + 52)
  else if c = 43 then some 62
  else if c = 47 then some 63
  else none

/-- `base64.b64encode`: bytes to base64 text, three bytes per four
characters, `=` (61) padding for a final group of one or two bytes. -/
def b64encode : List Nat → PyStr
  | [] => []
  | [b1] => [b64Char (b1 / 4), b64Char (b1 % 4 * 16), 61, 61]
  | [b1, b2] => [b64Char (b1 / 4), b64Char (b1 % 4 * 16 + b2 / 16),
      b64Char (b2 % 16 * 4), 61]
  | b1 :: b2 :: b3 :: rest =>
      b64Char (b1 / 4) :: b64Char (b1 % 4 * 16 + b2 / 16) ::
      b64Char (b2 % 16 * 4 + b3 / 64) :: b64Char (b3 % 64) :: b64encode rest

/-- `base64.b64decode`: base64 text to bytes; `none` models
`binascii.Error` (wrong length or character outside the alphabet). -/
def b64decode : PyStr → Option (List Nat)
  | [] => some []
  | c1 :: c2 :: c3 :: c4 :: rest =>
      match b64Index c1, b64Index c2 with
      | some n1, some n2 =>
          if c3 = 61 then
            if c4 = 61 ∧ rest = [] then some [n1 * 4 + n2 / 16] else none
          else
            match b64Index c3 with
            | some n3 =>
                if c4 = 61 then
                  if rest = [] then
                    some [n1 * 4 + n2 / 16, n2 % 16 * 16 + n3 / 4]
                  else none
                else
                  match b64Index c4, b64decode rest with
                  | some n4, some tail =>
                      some ((n1 * 4 + n2 / 16) :: (n2 % 16 * 16 + n3 / 4) ::
                        (n3 % 4 * 64 + n4) :: tail)
                  | _, _ => none
            | none => none
      | _, _ => none
  | _ => none

theorem b64Index_b64Char : ∀ n, n < 64 → b64Index (b64Char n) = some n := by
  decide

theorem b64Char_ne_pad : ∀ n, n < 64 → b64Char n ≠ 61 := by
  decide

/-- Decoding inverts encoding on any byte list. -/
theorem b64_roundtrip : ∀ bs : List Nat, (∀ b ∈ bs, b < 256) →
    b64decode (b64encode bs) = some bs := by
  intro bs
  induction bs using b64encode.induct with
  | case1 =>
      intro _
      simp [b64encode, b64decode]
  | case2 b1 =>
      intro h
      have hb1 : b1 < 256 := h b1 (by simp)
      have h1 : b1 / 4 < 64 := by omega
      have h2 : b1 % 4 * 16 < 64 := by omega
      simp [b64encode, b64decode, b64Index_b64Char _ h1, b64Index_b64Char _ h2]
      omega
  | case3 b1 b2 =>
      intro h
      have hb1 : b1 < 256 := h b1 (by simp)
      have hb2 : b2 < 256 := h b2 (by simp)
      have h1 : b1 / 4 < 64 := by omega
      have h2 : b1 % 4 * 16 + b2 / 16 < 64 := by omega
      have h3 : b2 % 16 * 4 < 64 := by omega
      have hne : b64Char (b2 % 16 * 4) ≠ 61 := b64Char_ne_pad _ h3
      simp [b64encode, b64decode, b64Index_b64Char _ h1, b64Index_b64Char _ h2,
        b64Index_b64Char _ h3, hne]
      omega
  | case4 b1 b2 b3 rest ih =>
      intro h
      have hb1 : b1 < 256 := h b1 (by simp)
      have hb2 : b2 < 256 := h b2 (by simp)
      have hb3 : b3 < 256 := h b3 (by simp)
      have h1 : b1 / 4 < 64 := by omega
      have h2 : b1 % 4 * 16 + b2 / 16 < 64 := by omega
      have h3 : b2 % 16 * 4 + b3 / 64 < 64 := by omega
      have h4 : b3 % 64 < 64 := by omega
      have hne3 : b64Char (b2 % 16 * 4 + b3 / 64) ≠ 61 := b64Char_ne_pad _ h3
      have hne4 : b64Char (b3 % 64) ≠ 61 := b64Char_ne_pad _ h4
      have hrest : b64decode (b64encode rest) = some rest :=
        ih (fun b hb => h b (by simp [hb]))
      simp [b64encode, b64decode, b64Index_b64Char _ h1, b64Index_b64Char _ h2,
        b64Index_b64Char _ h3, b64Index_b64Char _ h4, hne3, hne4, hrest]
      omega

/-! ### The UTF-8 collaborator

Modelled from the spec (§6): the external collaborators `str.encode()`
(UTF-8 encoding of code points) and `bytes.decode()` (strict UTF-8
decoding), as used by `base64.b64encode(S.encode())` and by
`Base64EncodedSecret.get_value`. -/

/-- A code point a valid Python text string may hold: below `0x110000`
and not a surrogate. -/
def validCp (n : Nat) : Prop := n < 1114112 ∧ (n < 55296 ∨ 57343 < n)

instance (n : Nat) : Decidable (validCp n) := by
  unfold validCp
  infer_instance

/-- Every code point of the string is valid (a valid UTF-8 string). -/
def validPyStr (s : PyStr) : Prop := ∀ c ∈ s, validCp c

instance (s : PyStr) : Decidable (validPyStr s) := by
  unfold validPyStr
  infer_instance

/-- UTF-8 encoding of one code point (1 to 4 bytes). -/
def utf8EncodeChar (n : Nat) : List Nat :=
  if n < 128 then [n]
  else if n < 2048 then [192 + n / 64, 128 + n % 64]
  else if n < 65536 then [224 + n / 4096, 128 + n / 64 % 64, 128 + n % 64]
  else [240 + n / 262144, 128 + n / 4096 % 64, 128 + n / 64 % 64, 128 + n % 64]

/-- `str.encode()`: UTF-8 encoding of a whole string. -/
def utf8Encode : PyStr → List Nat
  | [] => []
  | c :: rest => utf8EncodeChar c ++ utf8Encode rest

/-- Strict UTF-8 decoding, one byte per step.  The state is `none` when
the next byte must be a lead byte, and `some (acc, need, lo, hi)` when
`need` continuation bytes are still expected, the next of which must lie
in `[lo, hi]` (the narrowed first-continuation ranges reject overlong,
surrogate and out-of-range sequences, as Python's strict decoder does). -/
def utf8DecodeSt : Option (Nat × Nat × Nat × Nat) → List Nat → Option PyStr
  | none, [] => some []
  | some _, [] => none
  | none, b :: rest =>
      if b < 128 then (utf8DecodeSt none rest).map (fun t => b :: t)
      else if b < 194 then none
      else if b < 224 then utf8DecodeSt (some (b - 192, 1, 128, 191)) rest
      else if b < 240 then
        utf8DecodeSt (some (b - 224, 2, if b = 224 then 160 else 128,
          if b = 237 then 159 else 191)) rest
      else if b < 245 then
        utf8DecodeSt (some (b - 240, 3, if b = 240 then 144 else 128,
          if b = 244 then 143 else 191)) rest
      else none
  | some (acc, need, lo, hi), b :: rest =>
      if lo ≤ b ∧ b ≤ hi then
        if need = 1 then
          (utf8DecodeSt none rest).map (fun t => (acc * 64 + (b - 128)) :: t)
        else utf8DecodeSt (some (acc * 64 + (b - 128), need - 1, 128, 191)) rest
      else none

/-- `bytes.decode()`: strict UTF-8 decoding of a whole byte string;
`none` models `UnicodeDecodeError`. -/
def utf8Decode (bs : List Nat) : Option PyStr := utf8DecodeSt none bs

/-- One decoding step on a lead byte. -/
theorem utf8DecodeSt_lead (b : Nat) (rest : List Nat) :
    utf8DecodeSt none (b :: rest) =
      (if b < 128 then (utf8DecodeSt none rest).map (fun t => b :: t)
      else if b < 194 then none
      else if b < 224 then utf8DecodeSt (some (b - 192, 1, 128, 191)) rest
      else if b < 240 then
        utf8DecodeSt (some (b - 224, 2, if b = 224 then 160 else 128,
          if b = 237 then 159 else 191)) rest
      else if b < 245 then
        utf8DecodeSt (some (b - 240, 3, if b = 240 then 144 else 128,
          if b = 244 then 143 else 191)) rest
      else none) := by
  rw [utf8DecodeSt]

/-- One decoding step on an expected continuation byte. -/
theorem utf8DecodeSt_cont (acc need lo hi b : Nat) (rest : List Nat) :
    utf8DecodeSt (some (acc, need, lo, hi)) (b :: rest) =
      (if lo ≤ b ∧ b ≤ hi then
        if need = 1 then
          (utf8DecodeSt none rest).map (fun t => (acc * 64 + (b - 128)) :: t)
        else utf8DecodeSt (some (acc * 64 + (b - 128), need - 1, 128, 191)) rest
      else none) := by
  rw [utf8DecodeSt]

/-- Decoding one encoded code point from the front of a byte stream. -/
theorem utf8Decode_encodeChar_append (n : Nat) (tail : List Nat)
    (h : validCp n) :
    utf8DecodeSt none (utf8EncodeChar n ++ tail)
      = (utf8DecodeSt none tail).map (fun t => n :: t) := by
  obtain ⟨h1, h2⟩ := h
  by_cases hA : n < 128
  · simp only [utf8EncodeChar, if_pos hA, List.cons_append, List.nil_append]
    rw [utf8DecodeSt_lead, if_pos hA]
  · by_cases hB : n < 2048
    · simp only [utf8EncodeChar, if_neg hA, if_pos hB, List.cons_append, List.nil_append]
      rw [utf8DecodeSt_lead, if_neg (by omega), if_neg (by omega), if_pos (by omega),
        utf8DecodeSt_cont, if_pos (by omega), if_pos rfl,
        show (192 + n / 64 - 192) * 64 + (128 + n % 64 - 128) = n by omega]
    · by_cases hC : n < 65536
      · simp only [utf8EncodeChar, if_neg hA, if_neg hB, if_pos hC, List.cons_append,
          List.nil_append]
        rw [utf8DecodeSt_lead, if_neg (by omega), if_neg (by omega), if_neg (by omega),
          if_pos (by omega),
          utf8DecodeSt_cont,
          if_pos (by refine ⟨?_, ?_⟩ <;> split <;> omega),
          if_neg (by omega),
          utf8DecodeSt_cont, if_pos (by omega), if_pos (by omega),
          show ((224 + n / 4096 - 224) * 64 + (128 + n / 64 % 64 - 128)) * 64
            + (128 + n % 64 - 128) = n by omega]
      · simp only [utf8EncodeChar, if_neg hA, if_neg hB, if_neg hC, List.cons_append,
          List.nil_append]
        rw [utf8DecodeSt_lead, if_neg (by omega), if_neg (by omega), if_neg (by omega),
          if_neg (by omega), if_pos (by omega),
          utf8DecodeSt_cont,
          if_pos (by refine ⟨?_, ?_⟩ <;> split <;> omega),
          if_neg (by omega),
          utf8DecodeSt_cont, if_pos (by omega), if_neg (by omega),
          utf8DecodeSt_cont, if_pos (by omega), if_pos (by omega),
          show (((240 + n / 262144 - 240) * 64 + (128 + n / 4096 % 64 - 128)) * 64
            + (128 + n / 64 % 64 - 128)) * 64 + (128 + n % 64 - 128) = n by omega]

/-- Decoding inverts encoding on any valid string. -/
theorem utf8_roundtrip : ∀ s : PyStr, validPyStr s →
    utf8Decode (utf8Encode s) = some s := by
  intro s
  induction s with
  | nil => intro _; rfl
  | cons c rest ih =>
      intro h
      have hc : validCp c := h c (by simp)
      have hrest : validPyStr rest := fun b hb => h b (by simp [hb])
      have hr := ih hrest
      unfold utf8Decode at hr ⊢
      simp only [utf8Encode, utf8Decode_encodeChar_append c _ hc, hr]
      rfl

/-- The bytes UTF-8 encoding produces are bytes (below 256). -/
theorem utf8Encode_lt : ∀ s : PyStr, validPyStr s →
    ∀ b ∈ utf8Encode s, b < 256 := by
  intro s
  induction s with
  | nil => intro _ b hb; simp [utf8Encode] at hb
  | cons c rest ih =>
      intro h b hb
      have hc : validCp c := h c (by simp)
      obtain ⟨hc1, _⟩ := hc
      have hrest : validPyStr rest := fun x hx => h x (by simp [hx])
      simp only [utf8Encode, List.mem_append] at hb
      rcases hb with hb | hb
      · unfold utf8EncodeChar at hb
        split at hb <;> [skip; split at hb] <;> [skip; skip; split at hb] <;>
          simp at hb <;> omega
      · exact ih hrest b hb

/-- `Base64EncodedSecret.get_value` (src/secrets.py lines 60-66):
`base64.b64decode(self.encoded)` then `decoded.decode()`.  The
`isinstance(decoded, bytes)` branch is always taken, since `b64decode`
always returns `bytes`; the `else` arm is dead code. -/
def Base64EncodedSecret.get_value (encoded : PyStr) : Except Err PyStr :=
  match b64decode encoded with
  | none => .error .binasciiError
  | some decoded =>
      match utf8Decode decoded with
      | none => .error .unicodeDecodeError
      | some value => .ok value

/-- A `BaseSecret` instance, as dispatched on by `isinstance(secret,
BaseSecret)` in `ChainedSecret.get_value`.  The file-backed and
cloud-backed providers are modelled separately (they carry external
state); `custom` stands for an arbitrary further implementation of the
abstract capability (spec §3: anything with `resolve() -> string`),
identified by an id and returning a fixed outcome. -/
inductive BaseSecret where
  | environmentVariable (name : PyStr)
  | base64EncodedSecret (encoded : PyStr)
  | custom (id : Nat) (result : Except Err PyStr)

/-- Dispatch of `secret.get_value()` over the modelled providers. -/
def BaseSecret.get_value (env : Env) : BaseSecret → Except Err PyStr
  | .environmentVariable name => EnvironmentVariable.get_value env name
  | .base64EncodedSecret encoded => Base64EncodedSecret.get_value encoded
  | .custom _ result => result

/-- One step of a chain: the runtime union
`Union[str, BaseSecret, Type[BaseSecret], Callable[[str], BaseSecret]]`
(src/secrets.py line 81).  A plain string dispatches as `isinstance(.,
str)`; a `BaseSecret` instance as `isinstance(., BaseSecret)`; a secret
class and a transform function are both just `callable(.)` producing a
secret from the previous value. -/
inductive Step where
  | literal (s : PyStr)
  | inst (sec : BaseSecret)
  | callableStep (f : PyStr → BaseSecret)

/-- `ChainedSecret.__init__` stores the variadic step tuple in the
attribute `secrets` (src/secrets.py lines 80-81); it is the object's
only instance attribute. -/
structure ChainedSecret where
  secrets : List Step

/-- `ChainedSecret(*secrets)`: the constructor only stores the steps; it
performs no validation and cannot raise. -/
def ChainedSecret.init (steps : List Step) : Except Err ChainedSecret :=
  .ok ⟨steps⟩

/-- Python attribute lookup on a `ChainedSecret`: only `secrets` exists;
any other name raises `AttributeError`. -/
def ChainedSecret.getattrSteps (c : ChainedSecret) (attr : String) : Except Err (List Step) :=
  if attr = "secrets" then .ok c.secrets else .error (.attributeError attr)

/-- The `while secrets:` loop of `ChainedSecret.get_value`
(src/secrets.py lines 90-97), over the steps after the first.  `value`
is `none` while the local variable `value` is still unassigned; reading
it then raises `UnboundLocalError`.  The second component is a ghost
trace of the secrets whose `get_value` the loop invoked, in order. -/
def chainLoop (env : Env) : Option PyStr → List Step → Except Err (Option PyStr) × List BaseSecret
  | value, [] => (.ok value, [])
  | value, step :: rest =>
      match step with
      | .inst sec =>
          match sec.get_value env with
          | .error e => (.error e, [sec])
          | .ok v =>
              let (r, log) := chainLoop env (some v) rest
              (r, sec :: log)
      | .literal _ => chainLoop env value rest
      | .callableStep f =>
          match value with
          | none => (.error .unboundLocalError, [])
          | some v =>
              let sec := f v
              match sec.get_value env with
              | .error e => (.error e, [sec])
              | .ok v2 =>
                  let (r, log) := chainLoop env (some v2) rest
                  (r, sec :: log)

/-- `return value` after the loop: reading `value` when it was never
assigned raises `UnboundLocalError`. -/
def chainFinish : Except Err (Option PyStr) × List BaseSecret → Except Err PyStr × List BaseSecret
  | (.ok (some value), log) => (.ok value, log)
  | (.ok none, log) => (.error .unboundLocalError, log)
  | (.error e, log) => (.error e, log)

/-- The body of `ChainedSecret.get_value` from line 85 on: pop the first
step, initialise `value` from it (`BaseSecret` instance: resolve it;
`str`: use it directly; anything else: leave `value` unassigned), then
run the loop and return `value`.  `pop(0)` on an empty list raises
`IndexError`. -/
def chainBody (env : Env) : List Step → Except Err PyStr × List BaseSecret
  | [] => (.error .indexError, [])
  | first :: rest =>
      match first with
      | .inst sec =>
          match sec.get_value env with
          | .error e => (.error e, [sec])
          | .ok v =>
              let (r, log) := chainFinish (chainLoop env (some v) rest)
              (r, sec :: log)
      | .literal s => chainFinish (chainLoop env (some s) rest)
      | .callableStep _ => chainFinish (chainLoop env none rest)

/-- `ChainedSecret.get_value` as written (src/secrets.py lines 83-97):
line 84 reads `list(self.secret)` — the singular attribute `secret`,
which no object ever has (the constructor stores `secrets`) — so
attribute lookup raises before any step is processed. -/
def ChainedSecret.get_value (env : Env) (c : ChainedSecret) : Except Err PyStr × List BaseSecret :=
  match c.getattrSteps "secret" with
  | .error e => (.error e, [])
  | .ok steps => chainBody env steps

/-- Modelled from the spec (§4.6 and §9): the intended resolution, which
reads the stored plural attribute `secrets` where line 84 reads the
typo'd `secret`; the step dispatch itself is the faithful `chainBody`
from the source. -/
def ChainedSecret.getValueSpec (env : Env) (c : ChainedSecret) : Except Err PyStr × List BaseSecret :=
  chainBody env c.secrets

/-- `AWSSecretsManagerSecret` instance state (src/secrets.py lines
23-39).  `__init__` stores `secret_id` (and the imported module) only;
`client` is a `cached_property`, so `clientCache` is its backing slot in
the instance dict (`none` until first access).  `clientsCreated` is a
ghost counter of how many times `get_client()` ran, and a created client
handle is identified by the value of that counter at its creation. -/
structure AWSSecretsManagerSecret where
  secret_id : PyStr
  clientCache : Option Nat
  clientsCreated : Nat

/-- `AWSSecretsManagerSecret.__init__(secret_id)`: stores the id; no
client is constructed. -/
def AWSSecretsManagerSecret.init (sid : PyStr) : AWSSecretsManagerSecret :=
  ⟨sid, none, 0⟩

/-- The `client` cached property: return the cached handle if present,
otherwise run `get_client()` once and cache the handle. -/
def AWSSecretsManagerSecret.clientProp (s : AWSSecretsManagerSecret) :
    Nat × AWSSecretsManagerSecret :=
  match s.clientCache with
  | some c => (c, s)
  | none => (s.clientsCreated,
      { s with clientCache := some s.clientsCreated,
               clientsCreated := s.clientsCreated + 1 })

/-- `AWSSecretsManagerSecret.get_value` (lines 30-32):
`self.client.get_secret_value(SecretId=self.secret_id)["SecretString"]`.
The external call is the collaborator function `svc` (client handle and
secret id to payload). -/
def AWSSecretsManagerSecret.get_value (svc : Nat → PyStr → PyStr)
    (s : AWSSecretsManagerSecret) : PyStr × AWSSecretsManagerSecret :=
  let (c, s2) := s.clientProp
  (svc c s.secret_id, s2)

/-- The instance state after `n` successive `get_value` calls. -/
def AWSSecretsManagerSecret.resolveN (svc : Nat → PyStr → PyStr) :
    Nat → AWSSecretsManagerSecret → AWSSecretsManagerSecret
  | 0, s => s
  | n + 1, s => AWSSecretsManagerSecret.resolveN svc n (s.get_value svc).2

/-- Any secret object, as seen by the shared `BaseSecret.value` property
and `__str__` (src/secrets.py lines 14-20): a leaf provider or a chain. -/
inductive SecretObj where
  | leaf (s : BaseSecret)
  | chained (c : ChainedSecret)

/-- `self.get_value()` for any secret object. -/
def SecretObj.get_value (env : Env) : SecretObj → Except Err PyStr
  | .leaf s => s.get_value env
  | .chained c => (c.get_value env).1

/-- The `value` property (lines 14-17): just `self.get_value()`. -/
def SecretObj.value (env : Env) (s : SecretObj) : Except Err PyStr :=
  s.get_value env

/-- Python `str(x)` for `x` an `str`: the string itself. -/
def pyStrConv (s : PyStr) : PyStr := s

/-- `BaseSecret.__str__` (lines 19-20): `str(self.value)`; an exception
from resolution propagates. -/
def SecretObj.strDunder (env : Env) (s : SecretObj) : Except Err PyStr :=
  (s.value env).map pyStrConv

theorem chained_attr_lookup (env : Env) (c : ChainedSecret) :
    c.get_value env = (.error (.attributeError "secret"), []) := by
  unfold ChainedSecret.get_value ChainedSecret.getattrSteps
  rw [if_neg (by decide)]

/-- C1: for every `ChainedSecret` built with at least one step, the first
`get_value` invocation raises `AttributeError`, because line 84 reads
the undefined singular attribute `secret` instead of the stored
`secrets` field, and no step is ever resolved. -/
theorem chainedSecret_get_value_raises_attributeError (env : Env)
    (steps : List Step) (h : steps ≠ []) :
    ChainedSecret.get_value env ⟨steps⟩ = (.error (.attributeError "secret"), []) :=
  chained_attr_lookup env ⟨steps⟩

/-- C1 witness at a concrete one-step chain. -/
theorem chainedSecret_get_value_raises_attributeError_witness :
    ([Step.literal [120]] : List Step) ≠ [] ∧
    ChainedSecret.get_value [] ⟨[Step.literal [120]]⟩
      = (.error (.attributeError "secret"), []) :=
  ⟨List.cons_ne_nil _ _,
   chainedSecret_get_value_raises_attributeError [] [Step.literal [120]]
     (List.cons_ne_nil _ _)⟩

/-- C2: for a chain of two instance steps the code as written raises
`AttributeError` before resolving anything; under the spec's intended
reading of the stored `secrets` field the chain returns `B`'s outcome
whatever `A` resolved to, and the resolution trace is exactly
`[A, B]` — `A.resolve()` runs once even though its value is discarded. -/
theorem chain_two_instances_code_bug (env : Env) (A B : BaseSecret) (vA : PyStr)
    (hA : A.get_value env = .ok vA) :
    ChainedSecret.get_value env ⟨[.inst A, .inst B]⟩
      = (.error (.attributeError "secret"), [])
    ∧ ChainedSecret.getValueSpec env ⟨[.inst A, .inst B]⟩ = (B.get_value env, [A, B]) := by
  refine ⟨chained_attr_lookup env _, ?_⟩
  cases hB : B.get_value env <;>
    simp [ChainedSecret.getValueSpec, chainBody, chainLoop, chainFinish, hA, hB]

/-- C2 witness at two concrete instances. -/
theorem chain_two_instances_code_bug_witness :
    (BaseSecret.custom 0 (.ok [97])).get_value [] = .ok [97]
    ∧ (ChainedSecret.get_value []
        ⟨[.inst (.custom 0 (.ok [97])), .inst (.custom 1 (.ok [98]))]⟩
        = (.error (.attributeError "secret"), [])
      ∧ ChainedSecret.getValueSpec []
          ⟨[.inst (.custom 0 (.ok [97])), .inst (.custom 1 (.ok [98]))]⟩
        = ((BaseSecret.custom 1 (.ok [98])).get_value [],
           [.custom 0 (.ok [97]), .custom 1 (.ok [98])])) :=
  ⟨rfl, chain_two_instances_code_bug [] (.custom 0 (.ok [97])) (.custom 1 (.ok [98])) [97] rfl⟩

/-- C3: for a chain of a literal first step and a callable second step
the code as written raises `AttributeError`; under the spec's intended
reading, resolution returns exactly `f(X).resolve()`'s outcome, the
transform-produced secret being the only one resolved. -/
theorem chain_literal_transform_code_bug (env : Env) (X : PyStr)
    (f : PyStr → BaseSecret) :
    ChainedSecret.get_value env ⟨[.literal X, .callableStep f]⟩
      = (.error (.attributeError "secret"), [])
    ∧ ChainedSecret.getValueSpec env ⟨[.literal X, .callableStep f]⟩
      = ((f X).get_value env, [f X]) := by
  refine ⟨chained_attr_lookup env _, ?_⟩
  cases hf : (f X).get_value env <;>
    simp [ChainedSecret.getValueSpec, chainBody, chainLoop, chainFinish, hf]

/-- C4: for a chain of a single literal step the code as written raises
`AttributeError`; under the spec's intended reading, resolution returns
exactly the literal, with an empty resolution trace (no resolve call). -/
theorem chain_single_literal_code_bug (env : Env) (L : PyStr) :
    ChainedSecret.get_value env ⟨[.literal L]⟩
      = (.error (.attributeError "secret"), [])
    ∧ ChainedSecret.getValueSpec env ⟨[.literal L]⟩ = (.ok L, []) := by
  refine ⟨chained_attr_lookup env _, ?_⟩
  simp [ChainedSecret.getValueSpec, chainBody, chainLoop, chainFinish]

/-- C5 counterexample: constructing a `ChainedSecret` with zero steps
does not fail — `__init__` stores the empty tuple and returns normally. -/
theorem emptyChain_constructor_counterexample :
    ChainedSecret.init [] = .ok ⟨[]⟩ := rfl

/-- C5 amended: zero-step construction succeeds (the constructor
validates nothing); failure is deferred to resolution, which raises
`AttributeError` as written (and would raise `IndexError` from
`pop(0)` even with the attribute typo fixed) — there is no
`EmptyChainError` anywhere in the code. -/
theorem emptyChain_constructor_amended (env : Env) :
    ChainedSecret.init [] = .ok ⟨[]⟩
    ∧ (ChainedSecret.get_value env ⟨[]⟩).1 = .error (.attributeError "secret")
    ∧ (ChainedSecret.getValueSpec env ⟨[]⟩).1 = .error .indexError := by
  refine ⟨rfl, ?_, rfl⟩
  rw [chained_attr_lookup env ⟨[]⟩]

/-- C6: for every valid UTF-8 string `S`, a `Base64EncodedSecret`
constructed from the base64 encoding of `S` resolves back to `S`
(decode is a left inverse of encode). -/
theorem base64EncodedSecret_roundtrip (S : PyStr) (h : validPyStr S) :
    Base64EncodedSecret.get_value (b64encode (utf8Encode S)) = .ok S := by
  unfold Base64EncodedSecret.get_value
  simp only [b64_roundtrip _ (utf8Encode_lt S h), utf8_roundtrip S h]

/-- C6 witness at the string `s3cr3t`. -/
theorem base64EncodedSecret_roundtrip_witness :
    validPyStr [115, 51, 99, 114, 51, 116]
    ∧ Base64EncodedSecret.get_value (b64encode (utf8Encode [115, 51, 99, 114, 51, 116]))
      = .ok [115, 51, 99, 114, 51, 116] :=
  ⟨by decide, base64EncodedSecret_roundtrip [115, 51, 99, 114, 51, 116] (by decide)⟩

/-- C7: resolving an `EnvironmentVariable` fails with `Undefined(name)`
exactly when the name is absent from the environment, and returns the
environment's value when the name is set. -/
theorem environmentVariable_get_value_cases (env : Env) (name : PyStr) :
    (getenv env name = none →
      EnvironmentVariable.get_value env name = .error (.undefinedVariable name))
    ∧ ∀ v, getenv env name = some v →
      EnvironmentVariable.get_value env name = .ok v := by
  constructor
  · intro h
    simp [EnvironmentVariable.get_value, h]
  · intro v h
    simp [EnvironmentVariable.get_value, h]

/-- C7 witness: a one-entry environment, one unset and one set name. -/
theorem environmentVariable_get_value_cases_witness :
    (getenv [([80], [81])] [82] = none
      ∧ EnvironmentVariable.get_value [([80], [81])] [82]
        = .error (.undefinedVariable [82]))
    ∧ (getenv [([80], [81])] [80] = some [81]
      ∧ EnvironmentVariable.get_value [([80], [81])] [80] = .ok [81]) :=
  ⟨⟨rfl, (environmentVariable_get_value_cases [([80], [81])] [82]).1 rfl⟩,
   ⟨rfl, (environmentVariable_get_value_cases [([80], [81])] [80]).2 [81] rfl⟩⟩

theorem awsSecretsManagerSecret_stable (svc : Nat → PyStr → PyStr) (sid : PyStr) :
    ∀ n, AWSSecretsManagerSecret.resolveN svc n ⟨sid, some 0, 1⟩ = ⟨sid, some 0, 1⟩ := by
  intro n
  induction n with
  | zero => rfl
  | succ m ih =>
      show AWSSecretsManagerSecret.resolveN svc m
        ((AWSSecretsManagerSecret.get_value svc ⟨sid, some 0, 1⟩).2) = _
      exact ih

/-- C8: no client exists after `__init__`; across any number of
resolves, `get_client` runs at most once (exactly once as soon as one
resolve happened), the first-created handle stays cached, and every
later resolve calls the service through that same handle. -/
theorem awsSecretsManagerSecret_lazy_memoized_client (sid : PyStr)
    (svc : Nat → PyStr → PyStr) (n : Nat) :
    (AWSSecretsManagerSecret.init sid).clientCache = none
    ∧ (AWSSecretsManagerSecret.resolveN svc n
        (AWSSecretsManagerSecret.init sid)).clientsCreated = min n 1
    ∧ (AWSSecretsManagerSecret.resolveN svc (n + 1)
        (AWSSecretsManagerSecret.init sid)).clientCache = some 0
    ∧ ((AWSSecretsManagerSecret.resolveN svc (n + 1)
        (AWSSecretsManagerSecret.init sid)).get_value svc).1 = svc 0 sid := by
  have hN : ∀ m : Nat, AWSSecretsManagerSecret.resolveN svc (m + 1)
      (AWSSecretsManagerSecret.init sid) = ⟨sid, some 0, 1⟩ := by
    intro m
    show AWSSecretsManagerSecret.resolveN svc m
      ((AWSSecretsManagerSecret.get_value svc (AWSSecretsManagerSecret.init sid)).2) = _
    exact awsSecretsManagerSecret_stable svc sid m
  refine ⟨rfl, ?_, ?_, ?_⟩
  · cases n with
    | zero => rfl
    | succ m =>
        rw [hN m]
        show (1 : Nat) = min (m + 1) 1
        omega
  · rw [hN n]
  · rw [hN n]
    rfl

/-- C9: `__str__` returns exactly the successful resolution result:
whenever `get_value` succeeds with `v`, `str(s)` is that same `v`. -/
theorem secretObj_str_eq_value (env : Env) (s : SecretObj) (v : PyStr)
    (h : s.get_value env = .ok v) :
    SecretObj.strDunder env s = .ok v := by
  simp [SecretObj.strDunder, SecretObj.value, pyStrConv, Except.map, h]

/-- C9 witness: a base64 leaf secret resolving to `hi`. -/
theorem secretObj_str_eq_value_witness :
    (SecretObj.leaf (.base64EncodedSecret [97, 71, 107, 61])).get_value [] = .ok [104, 105]
    ∧ SecretObj.strDunder [] (.leaf (.base64EncodedSecret [97, 71, 107, 61]))
      = .ok [104, 105] :=
  ⟨rfl, secretObj_str_eq_value [] (.leaf (.base64EncodedSecret [97, 71, 107, 61])) [104, 105] rfl⟩

/-- C10: in the dispatch loop over the steps after the first, a plain
string step is silently skipped — it is neither a `BaseSecret` instance
nor callable, so the iteration is a no-op and the accumulated value is
left unchanged rather than overridden; in particular, under the
intended reading of the stored field, a chain `[Instance(A), "s"]`
still resolves to `A`'s value. -/
theorem chainLoop_skips_string_steps (env : Env) (v : Option PyStr)
    (s : PyStr) (rest : List Step) :
    chainLoop env v (.literal s :: rest) = chainLoop env v rest
    ∧ ∀ (A : BaseSecret) (vA : PyStr), A.get_value env = .ok vA →
      ChainedSecret.getValueSpec env ⟨[.inst A, .literal s]⟩ = (.ok vA, [A]) := by
  constructor
  · rfl
  · intro A vA hA
    simp [ChainedSecret.getValueSpec, chainBody, chainLoop, chainFinish, hA]

/-- C10 witness at a concrete value state and instance. -/
theorem chainLoop_skips_string_steps_witness :
    chainLoop [] none [Step.literal [122]] = chainLoop [] none []
    ∧ ((BaseSecret.custom 3 (.ok [97])).get_value [] = .ok [97]
      ∧ ChainedSecret.getValueSpec [] ⟨[.inst (.custom 3 (.ok [97])), .literal [122]]⟩
        = (.ok [97], [.custom 3 (.ok [97])])) :=
  ⟨(chainLoop_skips_string_steps [] none [122] []).1,
   rfl,
   (chainLoop_skips_string_steps [] none [122] []).2 (.custom 3 (.ok [97])) [97] rfl⟩
